import Mathlib

/-!
Verification of the resilience and observability core of the
patent-researcher agent repository: a shallow embedding of
`utils/error_handling.py` (circuit breaker, retry, safe_execute),
`utils/prometheus_metrics.py` (metric restore), `utils/metrics_persistence.py`
(snapshot save and load) and `utils/workflow_tracker.py` (workflow registry),
together with theorems about the embedded operations.

Timestamps and metric values are modelled as rationals; a Python function
that can raise is modelled either by an explicit outcome type or by a total
function into an option or outcome type.
-/

namespace PatentAgent

/-! ### Circuit breaker (`error_handling.py`, class `CircuitBreaker`) -/

/-- States of the breaker, from `CircuitState` in the source
(CLOSED, OPEN, HALF_OPEN). -/
inductive CircuitState
  | closed
  | opened
  | halfOpen
deriving DecidableEq, Repr

/-- Fields of `CircuitBreakerConfig` used by the breaker logic.
`expected_exception` and `monitor_interval` play no role in the embedded
control flow (all modelled failures are expected exceptions). -/
structure CircuitBreakerConfig where
  failure_threshold : Nat
  recovery_timeout : ℚ
deriving DecidableEq, Repr

/-- Mutable state of a `CircuitBreaker` instance. -/
structure CircuitBreaker where
  config : CircuitBreakerConfig
  state : CircuitState
  failure_count : Nat
  last_failure_time : Option ℚ
  last_success_time : Option ℚ
deriving DecidableEq, Repr

/-- `CircuitBreaker.__init__`: CLOSED, zero failures, no timestamps. -/
def mkCircuitBreaker (cfg : CircuitBreakerConfig) : CircuitBreaker :=
  { config := cfg
    state := CircuitState.closed
    failure_count := 0
    last_failure_time := none
    last_success_time := none }

/-- `CircuitBreaker._should_attempt_reset`: false when there is no recorded
failure, otherwise whether at least `recovery_timeout` seconds have passed
since the last failure. -/
def CircuitBreaker.shouldAttemptReset (cb : CircuitBreaker) (now : ℚ) : Bool :=
  match cb.last_failure_time with
  | none => false
  | some t => decide (cb.config.recovery_timeout ≤ now - t)

/-- `CircuitBreaker._on_success`: reset `failure_count` to 0, record the
success time, and close the breaker when it was HALF_OPEN. -/
def CircuitBreaker.onSuccess (cb : CircuitBreaker) (now : ℚ) : CircuitBreaker :=
  let cb1 := { cb with failure_count := 0, last_success_time := some now }
  if cb1.state = CircuitState.halfOpen then
    { cb1 with state := CircuitState.closed }
  else cb1

/-- `CircuitBreaker._on_failure`: increment `failure_count`, record the
failure time, and open the breaker once the count reaches the threshold. -/
def CircuitBreaker.onFailure (cb : CircuitBreaker) (now : ℚ) : CircuitBreaker :=
  let cb1 := { cb with failure_count := cb.failure_count + 1, last_failure_time := some now }
  if cb1.config.failure_threshold ≤ cb1.failure_count then
    { cb1 with state := CircuitState.opened }
  else cb1

/-- Observable outcome of one `CircuitBreaker.call`. -/
inductive CallResult
  | returned
  | raisedFuncError
  | raisedCircuitOpen
deriving DecidableEq, Repr

/-- The OPEN-state gate at the top of `CircuitBreaker.call`: when the breaker
is OPEN it either moves to HALF_OPEN (reset eligible) or refuses the call
(`none`, modelling `CircuitBreakerOpenError` raised before the wrapped
function runs). -/
def CircuitBreaker.preCheck (cb : CircuitBreaker) (now : ℚ) : Option CircuitBreaker :=
  if cb.state = CircuitState.opened then
    if cb.shouldAttemptReset now then
      some { cb with state := CircuitState.halfOpen }
    else none
  else some cb

/-- `CircuitBreaker.call func`: the wrapped function is modelled by the
boolean `funcOk` (true: returns, false: raises an expected exception).
Returns the new breaker state, the observable outcome, and how many times
the wrapped function was invoked during this call. -/
def CircuitBreaker.call (cb : CircuitBreaker) (now : ℚ) (funcOk : Bool) :
    CircuitBreaker × CallResult × Nat :=
  match cb.preCheck now with
  | none => (cb, CallResult.raisedCircuitOpen, 0)
  | some cb1 =>
      if funcOk then (cb1.onSuccess now, CallResult.returned, 1)
      else (cb1.onFailure now, CallResult.raisedFuncError, 1)

/-- A sequence of calls whose wrapped function always raises, made at the
given times; only the breaker state is kept. -/
def recordFailures (cb : CircuitBreaker) (times : List ℚ) : CircuitBreaker :=
  times.foldl (fun c t => (c.call t false).1) cb

/-- A sequence of guarded calls, each given by its time and the outcome of
the wrapped function; only the breaker state is kept. -/
def runCalls (cb : CircuitBreaker) (calls : List (ℚ × Bool)) : CircuitBreaker :=
  calls.foldl (fun c p => (c.call p.1 p.2).1) cb

/-- Count invariant of the breaker: whenever it is OPEN, or in the
transient HALF_OPEN probe state, its failure count has reached the
threshold (`_on_failure` is the only way to leave CLOSED and it never
resets the count on the way to OPEN). -/
def BreakerCountInv (cb : CircuitBreaker) : Prop :=
  cb.state = CircuitState.opened ∨ cb.state = CircuitState.halfOpen →
    cb.config.failure_threshold ≤ cb.failure_count

/-! ### Retry (`error_handling.py`, `RetryConfig` and the `retry` decorator) -/

/-- `RetryConfig`; the retryable-exception tuple is modelled by the
per-attempt outcome type below. -/
structure RetryConfig where
  max_attempts : Nat
  base_delay : ℚ
  max_delay : ℚ
  exponential_backoff : Bool
deriving DecidableEq, Repr

/-- Outcome of one invocation of the function wrapped by `retry`:
it returns, raises an exception matched by `retry_exceptions`, or raises
one that is not matched. -/
inductive AttemptOutcome
  | ok
  | retryable
  | fatal
deriving DecidableEq, Repr

/-- How the wrapped call as a whole terminates. `raisedNone` models the
final `raise last_exception` when the attempt loop body never ran
(`max_attempts = 0`), where `last_exception` is still `None`. -/
inductive RunResult
  | ok
  | raisedRetryable
  | raisedFatal
  | raisedNone
deriving DecidableEq, Repr

/-- Trace of one run of the `retry` wrapper: final result, number of
invocations of the wrapped function, and the sleeps performed in order. -/
structure RetryTrace where
  result : RunResult
  attempts : Nat
  sleeps : List ℚ
deriving DecidableEq, Repr

/-- The delay computed before retrying after failed 0-based attempt
`attempt`: `min(base_delay * 2 ** attempt, max_delay)` under exponential
backoff, else `base_delay`. -/
def delayFor (cfg : RetryConfig) (attempt : Nat) : ℚ :=
  if cfg.exponential_backoff then min (cfg.base_delay * 2 ^ attempt) cfg.max_delay
  else cfg.base_delay

/-- The loop `for attempt in range(config.max_attempts)` of the `retry`
wrapper. `attempt` is the current 0-based index and `remaining` the number
of loop iterations left (`max_attempts - attempt`); recursion is on
`remaining`. On a retryable failure at the last attempt the original
exception propagates with no sleep; otherwise the loop sleeps `delayFor`
and continues. The wrapped function is modelled by its outcome at each
attempt index. -/
def retryLoopAux (cfg : RetryConfig) (f : Nat → AttemptOutcome) :
    Nat → Nat → RetryTrace
  | _, 0 => { result := RunResult.raisedNone, attempts := 0, sleeps := [] }
  | attempt, n + 1 =>
      match f attempt with
      | AttemptOutcome.ok => { result := RunResult.ok, attempts := 1, sleeps := [] }
      | AttemptOutcome.fatal => { result := RunResult.raisedFatal, attempts := 1, sleeps := [] }
      | AttemptOutcome.retryable =>
          if attempt = cfg.max_attempts - 1 then
            { result := RunResult.raisedRetryable, attempts := 1, sleeps := [] }
          else
            let rest := retryLoopAux cfg f (attempt + 1) n
            { result := rest.result
              attempts := rest.attempts + 1
              sleeps := delayFor cfg attempt :: rest.sleeps }

/-- One run of the function produced by `retry(config)`. -/
def retryRun (cfg : RetryConfig) (f : Nat → AttemptOutcome) : RetryTrace :=
  retryLoopAux cfg f 0 cfg.max_attempts

/-! ### `ErrorHandler.safe_execute` with retry and breaker -/

/-- `ErrorHandler.safe_execute` on the path where both `retry_config` and a
registered circuit breaker are supplied: the function is first wrapped by
`retry(retry_config)` and the wrapped function is then passed to
`circuit_breaker.call` as a single guarded call, so the breaker sees one
success or one failure for the whole retried call (all retry-loop
exceptions are instances of the expected exception type). The final
component counts invocations of the underlying function. -/
def safeExecute (cb : CircuitBreaker) (rcfg : RetryConfig) (now : ℚ)
    (f : Nat → AttemptOutcome) : CircuitBreaker × CallResult × Nat :=
  match cb.preCheck now with
  | none => (cb, CallResult.raisedCircuitOpen, 0)
  | some cb1 =>
      let trace := retryRun rcfg f
      if trace.result = RunResult.ok then
        (cb1.onSuccess now, CallResult.returned, trace.attempts)
      else
        (cb1.onFailure now, CallResult.raisedFuncError, trace.attempts)

/-! ### Metric restore (`prometheus_metrics.py`, `PrometheusMetrics._restore_metrics`) -/

/-- Python `int()` on a rational: truncation toward zero. -/
def pyint (q : ℚ) : ℤ :=
  if 0 ≤ q then ⌊q⌋ else -⌊-q⌋

/-- Python `str.endswith`. -/
def pyEndsWith (s suffix : String) : Bool :=
  suffix.data.isSuffixOf s.data

/-- Python `str.startswith`. -/
def pyStartsWith (s start : String) : Bool :=
  start.data.isPrefixOf s.data

/-- The counter metrics `_restore_metrics` knows how to restore
(the four name-to-object cases of its counter branch). -/
def knownCounterNames : List String :=
  ["patent_agent_executions_total", "patent_task_executions_total",
   "patent_workflow_executions_total", "patent_agent_errors_total"]

/-- The histogram sum metrics `_restore_metrics` replays as synthetic
observations. -/
def supportedHistogramSumNames : List String :=
  ["patent_workflow_duration_seconds_sum",
   "patent_agent_execution_duration_seconds_sum",
   "patent_task_execution_duration_seconds_sum"]

/-- The mutation `_restore_metrics` performs for one saved sample:
advance a counter by `n` calls of `counter.inc()`, set a gauge, make one
histogram observation, or do nothing. -/
inductive RestoreAction
  | advanceCounter (name : String) (times : Nat)
  | setGauge (name : String) (value : ℚ)
  | observeHistogram (name : String) (value : ℚ)
  | skip
deriving DecidableEq, Repr

/-- The per-sample dispatch of `_restore_metrics`. `current_value` is the
live value parsed back out of the freshly generated metrics text (0 when
the sample is absent there), `value` the persisted value. Branches follow
the source in order: counter names ending in `_total` or `_count` (with all
unknown or evaluation or histogram-count cases skipped), the gauge branch,
the bare `patent_workflow_duration_seconds` case, the `_sum` branch, and a
final skip. A counter is advanced by `int(value) - int(current_value)` unit
increments, and only when `value > current_value`; `range` of a
non-positive number performs no increment. -/
def restoreSample (name : String) (current_value value : ℚ) : RestoreAction :=
  if pyEndsWith name "_total" || pyEndsWith name "_count" then
    if name ∈ knownCounterNames then
      if current_value < value then
        RestoreAction.advanceCounter name ((pyint value - pyint current_value).toNat)
      else RestoreAction.skip
    else RestoreAction.skip
  else if pyEndsWith name "_rate" || pyEndsWith name "_usage_bytes" ||
      pyEndsWith name "_entries_total" || pyEndsWith name "_remaining" ||
      pyEndsWith name "_reset_time" || name = "patent_workflow_success_rate" then
    if name = "patent_workflow_success_rate" then RestoreAction.setGauge name value
    else RestoreAction.skip
  else if name = "patent_workflow_duration_seconds" then
    RestoreAction.observeHistogram name value
  else if pyEndsWith name "_sum" then
    if pyStartsWith name "patent_evaluation" then RestoreAction.skip
    else if name ∈ supportedHistogramSumNames then
      RestoreAction.observeHistogram name value
    else RestoreAction.skip
  else RestoreAction.skip

/-- Effect of a restore action on the live value of the counter it names;
actions that do not advance a counter leave it unchanged. -/
def applyCounterAction (live : ℚ) (a : RestoreAction) : ℚ :=
  match a with
  | RestoreAction.advanceCounter _ n => live + (n : ℚ)
  | _ => live

/-- Live value of a counter sample after `_restore_metrics` processes the
persisted sample with the same name and labels. -/
def restoreCounterValue (name : String) (live value : ℚ) : ℚ :=
  applyCounterAction live (restoreSample name live value)

/-- The sum and count of one labelled histogram child, the state touched by
`histogram.observe`. -/
structure HistogramChild where
  sum : ℚ
  count : Nat
deriving DecidableEq, Repr

/-- `histogram.observe(v)`: add `v` to the sum and 1 to the count. -/
def HistogramChild.observe (h : HistogramChild) (v : ℚ) : HistogramChild :=
  { sum := h.sum + v, count := h.count + 1 }

/-! ### Snapshot persistence (`metrics_persistence.py`, `MetricsPersistence`) -/

/-- File-system operations relevant to `save_metrics`: a truncating open
for writing, a full write of serialized data, and a rename. -/
inductive FsOp
  | openTrunc (path : String)
  | writeAll (path : String) (data : String)
  | rename (src dst : String)
deriving DecidableEq, Repr

/-- Whether an operation is a rename. -/
def FsOp.isRename : FsOp → Bool
  | FsOp.rename _ _ => true
  | _ => false

/-- The file operations `MetricsPersistence.save_metrics` performs on its
persistence file: `open(self.persistence_file, "w")` truncates the file in
place, then `json.dump` writes the serialized snapshot into it. There is
no temporary file and no rename. -/
def save_metrics_ops (path data : String) : List FsOp :=
  [FsOp.openTrunc path, FsOp.writeAll path data]

/-- Effect of one operation on a file system, modelled as a map from path
to content. -/
def applyFsOp (fs : String → Option String) : FsOp → String → Option String
  | FsOp.openTrunc p => fun q => if q = p then some "" else fs q
  | FsOp.writeAll p d => fun q => if q = p then some d else fs q
  | FsOp.rename src dst => fun q =>
      if q = dst then fs src else if q = src then none else fs q

/-- Run a list of file operations; stopping the fold after a prefix gives
the file system visible after a crash at that point. -/
def runFs (fs : String → Option String) (ops : List FsOp) : String → Option String :=
  ops.foldl applyFsOp fs

/-- One serialized metric sample of the snapshot document. -/
structure Sample where
  name : String
  labels : List (String × String)
  value : ℚ
deriving DecidableEq, Repr

/-- The states the persistence file can be in when `load_metrics` runs:
absent, present but not valid JSON, or a parsed JSON document with its
optional `metrics` and `timestamp` fields. -/
inductive PersistenceFile
  | missing
  | corrupt
  | valid (metricsField : Option (List Sample)) (timestampField : Option ℚ)
deriving DecidableEq

/-- Result of a Python call: a value, or a raised exception. -/
inductive PyOutcome (α : Type)
  | ok (val : α)
  | exn (msg : String)
deriving DecidableEq

/-- Whether a call raised. -/
def PyOutcome.raised {α : Type} : PyOutcome α → Bool
  | PyOutcome.exn _ => true
  | _ => false

/-- The body of the `try` block of `MetricsPersistence.load_metrics`:
an absent file returns `None` early; `json.load` on a corrupt file raises;
otherwise the value of `data.get("metrics", {})` is returned. -/
def load_metricsBody : PersistenceFile → PyOutcome (Option (List Sample))
  | PersistenceFile.missing => PyOutcome.ok none
  | PersistenceFile.corrupt => PyOutcome.exn "JSONDecodeError"
  | PersistenceFile.valid m _ => PyOutcome.ok (some (m.getD []))

/-- `MetricsPersistence.load_metrics`: the `except Exception` handler turns
any raised exception into a logged `None` return. -/
def load_metrics (f : PersistenceFile) : PyOutcome (Option (List Sample)) :=
  match load_metricsBody f with
  | PyOutcome.ok v => PyOutcome.ok v
  | PyOutcome.exn _ => PyOutcome.ok none

/-! ### Workflow tracker (`workflow_tracker.py`, class `WorkflowTracker`) -/

/-- Lookup in a Python dict modelled as an association list. -/
def dictLookup {α : Type} : List (String × α) → String → Option α
  | [], _ => none
  | (k, v) :: rest, k1 => if k = k1 then some v else dictLookup rest k1

/-- Dict assignment `d[k] = v`: replace the binding in place, or append. -/
def dictSet {α : Type} : List (String × α) → String → α → List (String × α)
  | [], k, v => [(k, v)]
  | (k1, v1) :: rest, k, v =>
      if k1 = k then (k, v) :: rest else (k1, v1) :: dictSet rest k v

/-- Dict deletion (`del d[k]` guarded by membership, or `d.pop(k, None)`):
drop every binding of the key (a dict holds at most one). -/
def dictRemove {α : Type} (d : List (String × α)) (k : String) : List (String × α) :=
  d.filter (fun p => p.1 != k)

/-- `set.add`. -/
def setAdd (s : List String) (x : String) : List String :=
  if x ∈ s then s else x :: s

/-- `set.remove` and `set.discard`: drop the element. -/
def setRemove (s : List String) (x : String) : List String :=
  s.filter (fun y => y != x)

/-- The three structures of `WorkflowTracker`: the active-workflow set, the
listener dict and the last-activity dict. Listener handles are opaque and
modelled as naturals. -/
structure WorkflowTracker where
  active_workflows : List String
  workflow_listeners : List (String × Nat)
  last_workflow_activity : List (String × ℚ)
deriving DecidableEq

/-- `WorkflowTracker.__init__`. -/
def emptyTracker : WorkflowTracker :=
  { active_workflows := [], workflow_listeners := [], last_workflow_activity := [] }

/-- `register_workflow`: refuse (returning the state unchanged and `false`)
when the id is already active, otherwise add to all three structures with
`last_activity = now` and return `true`. -/
def register_workflow (s : WorkflowTracker) (workflow_id : String) (listener : Nat)
    (now : ℚ) : WorkflowTracker × Bool :=
  if workflow_id ∈ s.active_workflows then (s, false)
  else
    ({ active_workflows := setAdd s.active_workflows workflow_id
       workflow_listeners := dictSet s.workflow_listeners workflow_id listener
       last_workflow_activity := dictSet s.last_workflow_activity workflow_id now }, true)

/-- `unregister_workflow`: refuse when the id is not active, otherwise
remove it from all three structures. -/
def unregister_workflow (s : WorkflowTracker) (workflow_id : String) :
    WorkflowTracker × Bool :=
  if workflow_id ∈ s.active_workflows then
    ({ active_workflows := setRemove s.active_workflows workflow_id
       workflow_listeners := dictRemove s.workflow_listeners workflow_id
       last_workflow_activity := dictRemove s.last_workflow_activity workflow_id }, true)
  else (s, false)

/-- `is_workflow_active`. -/
def is_workflow_active (s : WorkflowTracker) (workflow_id : String) : Bool :=
  workflow_id ∈ s.active_workflows

/-- `update_workflow_activity`: refresh the activity time of an active id,
no-op otherwise. -/
def update_workflow_activity (s : WorkflowTracker) (workflow_id : String) (now : ℚ) :
    WorkflowTracker :=
  if workflow_id ∈ s.active_workflows then
    { s with last_workflow_activity := dictSet s.last_workflow_activity workflow_id now }
  else s

/-- `get_workflow_listener`. -/
def get_workflow_listener (s : WorkflowTracker) (workflow_id : String) : Option Nat :=
  dictLookup s.workflow_listeners workflow_id

/-- Body of the removal loop of `cleanup_inactive_workflows`: discard one id
from all three structures. -/
def removeWorkflowEntry (s : WorkflowTracker) (workflow_id : String) : WorkflowTracker :=
  { active_workflows := setRemove s.active_workflows workflow_id
    workflow_listeners := dictRemove s.workflow_listeners workflow_id
    last_workflow_activity := dictRemove s.last_workflow_activity workflow_id }

/-- `cleanup_inactive_workflows`: collect into `to_remove` every id whose
last activity lies more than `max_inactive_time` before `current_time`,
remove each collected id from all three structures, and return
`len(to_remove)`. -/
def cleanup_inactive_workflows (s : WorkflowTracker) (current_time max_inactive_time : ℚ) :
    WorkflowTracker × Nat :=
  let to_remove :=
    (s.last_workflow_activity.filter
      (fun p => decide (max_inactive_time < current_time - p.2))).map Prod.fst
  (to_remove.foldl removeWorkflowEntry s, to_remove.length)

/-- Modelled from the spec: the return value §4.6 ascribes to
`sweep(maxInactive)`, namely the list of removed workflow ids. The source
method `cleanup_inactive_workflows` computes this list internally as
`to_remove` but returns only its length. -/
def sweepRemovedIds (s : WorkflowTracker) (current_time max_inactive_time : ℚ) :
    List String :=
  (s.last_workflow_activity.filter
    (fun p => decide (max_inactive_time < current_time - p.2))).map Prod.fst

/-- The tracker operations a caller can perform (the boolean results of
register and unregister are dropped; sweep keeps only the new state). -/
inductive TrackerOp
  | register (workflow_id : String) (listener : Nat) (now : ℚ)
  | unregister (workflow_id : String)
  | touch (workflow_id : String) (now : ℚ)
  | sweep (now : ℚ) (maxInactive : ℚ)

/-- Apply one tracker operation to the state. -/
def applyTrackerOp (s : WorkflowTracker) : TrackerOp → WorkflowTracker
  | TrackerOp.register workflow_id listener now =>
      (register_workflow s workflow_id listener now).1
  | TrackerOp.unregister workflow_id => (unregister_workflow s workflow_id).1
  | TrackerOp.touch workflow_id now => update_workflow_activity s workflow_id now
  | TrackerOp.sweep now maxInactive => (cleanup_inactive_workflows s now maxInactive).1

/-- Run a sequence of operations from a fresh tracker. -/
def runOps (ops : List TrackerOp) : WorkflowTracker :=
  ops.foldl applyTrackerOp emptyTracker

/-- Consistency of the three structures: an id is in the active set exactly
when it has a listener binding, exactly when it has an activity binding. -/
def TrackerInv (s : WorkflowTracker) : Prop :=
  ∀ workflow_id : String,
    (workflow_id ∈ s.active_workflows ↔
      (dictLookup s.workflow_listeners workflow_id).isSome) ∧
    (workflow_id ∈ s.active_workflows ↔
      (dictLookup s.last_workflow_activity workflow_id).isSome)

/-! ### Helper lemmas: circuit breaker -/

theorem call_closed_fail (cb : CircuitBreaker) (t : ℚ) (h : cb.state = CircuitState.closed) :
    cb.call t false = (cb.onFailure t, CallResult.raisedFuncError, 1) := by
  simp [CircuitBreaker.call, CircuitBreaker.preCheck, h]

theorem onFailure_eq (cb : CircuitBreaker) (t : ℚ) :
    cb.onFailure t =
      if cb.config.failure_threshold ≤ cb.failure_count + 1 then
        { cb with
            state := CircuitState.opened
            failure_count := cb.failure_count + 1
            last_failure_time := some t }
      else
        { cb with
            failure_count := cb.failure_count + 1
            last_failure_time := some t } := rfl

theorem recordFailures_closed (times : List ℚ) :
    ∀ cb : CircuitBreaker, cb.state = CircuitState.closed →
      cb.failure_count + times.length < cb.config.failure_threshold →
      (recordFailures cb times).state = CircuitState.closed ∧
      (recordFailures cb times).failure_count = cb.failure_count + times.length ∧
      (recordFailures cb times).config = cb.config := by
  induction times with
  | nil =>
      intro cb h1 _
      exact ⟨h1, by simp [recordFailures], rfl⟩
  | cons t rest ih =>
      intro cb h1 h2
      have hnot : ¬ cb.config.failure_threshold ≤ cb.failure_count + 1 := by
        simp only [List.length_cons] at h2; omega
      have hof : cb.onFailure t =
          { cb with
              failure_count := cb.failure_count + 1
              last_failure_time := some t } := by
        rw [onFailure_eq, if_neg hnot]
      have hstep : recordFailures cb (t :: rest) = recordFailures (cb.onFailure t) rest := by
        simp [recordFailures, call_closed_fail cb t h1]
      rw [hstep, hof]
      have h2a : cb.failure_count + 1 + rest.length < cb.config.failure_threshold := by
        simp only [List.length_cons] at h2; omega
      obtain ⟨a, b, c⟩ := ih
        { cb with
            failure_count := cb.failure_count + 1
            last_failure_time := some t } h1 h2a
      refine ⟨a, ?_, c⟩
      rw [b]; simp; omega

/-- C1: starting from a fresh CLOSED breaker, a sequence of
`failure_threshold` consecutive recorded failures (at times `ts ++ [tl]`)
leaves the breaker OPEN; a call made while `recovery_timeout` has not yet
elapsed since the last failure returns the synthetic circuit-open error,
leaves the breaker unchanged and never invokes the wrapped function; and a
call made once `recovery_timeout` has elapsed first moves the breaker to
HALF_OPEN and invokes the wrapped function exactly once. -/
theorem circuit_breaker_opens_then_fails_fast_then_half_opens
    (cfg : CircuitBreakerConfig) (ts : List ℚ) (tl t t1 : ℚ) (o o1 : Bool)
    (hthr : ts.length + 1 = cfg.failure_threshold)
    (hbefore : t - tl < cfg.recovery_timeout)
    (hafter : cfg.recovery_timeout ≤ t1 - tl) :
    (recordFailures (mkCircuitBreaker cfg) (ts ++ [tl])).state = CircuitState.opened ∧
    (recordFailures (mkCircuitBreaker cfg) (ts ++ [tl])).call t o
      = (recordFailures (mkCircuitBreaker cfg) (ts ++ [tl]),
         CallResult.raisedCircuitOpen, 0) ∧
    (recordFailures (mkCircuitBreaker cfg) (ts ++ [tl])).preCheck t1
      = some { recordFailures (mkCircuitBreaker cfg) (ts ++ [tl]) with
                 state := CircuitState.halfOpen } ∧
    ((recordFailures (mkCircuitBreaker cfg) (ts ++ [tl])).call t1 o1).2.2 = 1 := by
  obtain ⟨hs, hc, hcfg⟩ := recordFailures_closed ts (mkCircuitBreaker cfg) rfl
    (by simp [mkCircuitBreaker]; omega)
  have hth2 : (recordFailures (mkCircuitBreaker cfg) ts).config.failure_threshold
      ≤ (recordFailures (mkCircuitBreaker cfg) ts).failure_count + 1 := by
    rw [hcfg, hc]; simp [mkCircuitBreaker]; omega
  have happ : recordFailures (mkCircuitBreaker cfg) (ts ++ [tl])
      = { recordFailures (mkCircuitBreaker cfg) ts with
            state := CircuitState.opened
            failure_count := (recordFailures (mkCircuitBreaker cfg) ts).failure_count + 1
            last_failure_time := some tl } := by
    have h1 : recordFailures (mkCircuitBreaker cfg) (ts ++ [tl])
        = ((recordFailures (mkCircuitBreaker cfg) ts).call tl false).1 := by
      simp [recordFailures, List.foldl_append]
    rw [h1, call_closed_fail _ tl hs, onFailure_eq, if_pos hth2]
  have hcfg2 : (recordFailures (mkCircuitBreaker cfg) ts).config = cfg := by
    rw [hcfg]; rfl
  have hreset_no : (recordFailures (mkCircuitBreaker cfg) (ts ++ [tl])).shouldAttemptReset t
      = false := by
    rw [happ]
    simp [CircuitBreaker.shouldAttemptReset, hcfg2]
    exact hbefore
  have hreset_yes : (recordFailures (mkCircuitBreaker cfg) (ts ++ [tl])).shouldAttemptReset t1
      = true := by
    rw [happ]
    simp [CircuitBreaker.shouldAttemptReset, hcfg2]
    exact hafter
  have hstate : (recordFailures (mkCircuitBreaker cfg) (ts ++ [tl])).state
      = CircuitState.opened := by rw [happ]
  refine ⟨hstate, ?_, ?_, ?_⟩
  · simp [CircuitBreaker.call, CircuitBreaker.preCheck, hstate, hreset_no]
  · simp [CircuitBreaker.preCheck, hstate, hreset_yes]
  · simp only [CircuitBreaker.call, CircuitBreaker.preCheck, hstate, hreset_yes,
      if_pos, if_true]
    cases o1 <;> simp

/-- Witness for C1 at threshold 1, timeout 60: one failure at time 0, a
fail-fast call at time 30, and a successful probe transition at time 60. -/
theorem circuit_breaker_opens_then_fails_fast_then_half_opens_witness :
    (([] : List ℚ).length + 1 = (1 : Nat)) ∧
    ((recordFailures (mkCircuitBreaker ⟨1, 60⟩) ([] ++ [(0:ℚ)])).state
        = CircuitState.opened ∧
      (recordFailures (mkCircuitBreaker ⟨1, 60⟩) ([] ++ [(0:ℚ)])).call 30 true
        = (recordFailures (mkCircuitBreaker ⟨1, 60⟩) ([] ++ [(0:ℚ)]),
           CallResult.raisedCircuitOpen, 0) ∧
      (recordFailures (mkCircuitBreaker ⟨1, 60⟩) ([] ++ [(0:ℚ)])).preCheck 60
        = some { recordFailures (mkCircuitBreaker ⟨1, 60⟩) ([] ++ [(0:ℚ)]) with
                   state := CircuitState.halfOpen } ∧
      ((recordFailures (mkCircuitBreaker ⟨1, 60⟩) ([] ++ [(0:ℚ)])).call 60 false).2.2 = 1) :=
  ⟨rfl, circuit_breaker_opens_then_fails_fast_then_half_opens ⟨1, 60⟩ [] 0 30 60 true false
    rfl (by norm_num) (by norm_num)⟩

theorem preCheck_some_cases (cb cb1 : CircuitBreaker) (now : ℚ)
    (hpc : cb.preCheck now = some cb1) :
    cb1.config = cb.config ∧ cb1.failure_count = cb.failure_count ∧
    ((cb1 = cb ∧ ¬ cb.state = CircuitState.opened) ∨
      (cb1.state = CircuitState.halfOpen ∧ cb.state = CircuitState.opened)) := by
  unfold CircuitBreaker.preCheck at hpc
  split_ifs at hpc with h1 h2
  · injection hpc with hh
    subst hh
    exact ⟨rfl, rfl, Or.inr ⟨rfl, h1⟩⟩
  · injection hpc with hh
    subst hh
    exact ⟨rfl, rfl, Or.inl ⟨rfl, h1⟩⟩

theorem call_preserves_countInv (cb : CircuitBreaker) (now : ℚ) (o : Bool)
    (h : BreakerCountInv cb) : BreakerCountInv ((cb.call now o).1) := by
  unfold BreakerCountInv at *
  rcases hpc : cb.preCheck now with _ | cb1
  · simpa [CircuitBreaker.call, hpc] using h
  · obtain ⟨hcfg, hcount, hstate⟩ := preCheck_some_cases cb cb1 now hpc
    have hc1 : cb1.state = CircuitState.opened ∨ cb1.state = CircuitState.halfOpen →
        cb1.config.failure_threshold ≤ cb1.failure_count := by
      rcases hstate with ⟨rfl, _⟩ | ⟨hh, ho⟩
      · exact h
      · intro _
        rw [hcfg, hcount]
        exact h (Or.inl ho)
    cases o
    · simp only [CircuitBreaker.call, hpc, Bool.false_eq_true, if_neg, ite_false,
        onFailure_eq]
      split_ifs with hth
      · intro _
        simpa using hth
      · intro hor
        exfalso
        have hle := hc1 (by simpa using hor)
        omega
    · simp only [CircuitBreaker.call, hpc, ite_true, CircuitBreaker.onSuccess]
      split_ifs with hho
      · intro hcontra
        rcases hcontra with hc | hc <;> simp at hc
      · intro hcontra
        have hc1state : cb1.state = CircuitState.opened := by
          rcases hcontra with hc | hc
          · simpa using hc
          · exact absurd (by simpa using hc) (by simpa using hho)
        rcases hstate with ⟨rfl, hnot⟩ | ⟨hh, _⟩
        · exact absurd hc1state hnot
        · rw [hh] at hc1state
          cases hc1state

theorem runCalls_countInv_aux (calls : List (ℚ × Bool)) :
    ∀ cb : CircuitBreaker, BreakerCountInv cb → BreakerCountInv (runCalls cb calls) := by
  induction calls with
  | nil =>
      intro cb h
      simpa [runCalls] using h
  | cons c rest ih =>
      intro cb h
      have hstep : runCalls cb (c :: rest) = runCalls ((cb.call c.1 c.2).1) rest := rfl
      rw [hstep]
      exact ih _ (call_preserves_countInv cb c.1 c.2 h)

theorem runCalls_countInv (cfg : CircuitBreakerConfig) (calls : List (ℚ × Bool)) :
    BreakerCountInv (runCalls (mkCircuitBreaker cfg) calls) := by
  apply runCalls_countInv_aux
  intro hcontra
  rcases hcontra with hc | hc <;> simp [mkCircuitBreaker] at hc

/-- C2 (amended): for every breaker reached from a fresh breaker by any
sequence of guarded calls and now OPEN and eligible for reset — so that the
next call is admitted as the HALF_OPEN trial (HALF_OPEN is transient: it
exists only between the reset check and the trial outcome) — the trial
outcome alone decides the next state: a trial success moves it to CLOSED
with `failure_count` reset to 0, while a trial failure moves it back to
OPEN with `failure_count` incremented by one — not reset — and the failure
time (the openedAt used by the reset check) set to the current time. -/
theorem half_open_trial_outcome (cfg : CircuitBreakerConfig) (calls : List (ℚ × Bool))
    (now : ℚ)
    (hopen : (runCalls (mkCircuitBreaker cfg) calls).state = CircuitState.opened)
    (hreset : (runCalls (mkCircuitBreaker cfg) calls).shouldAttemptReset now = true) :
    (runCalls (mkCircuitBreaker cfg) calls).preCheck now
      = some { runCalls (mkCircuitBreaker cfg) calls with
                 state := CircuitState.halfOpen } ∧
    (((runCalls (mkCircuitBreaker cfg) calls).call now true).1.state
        = CircuitState.closed ∧
      ((runCalls (mkCircuitBreaker cfg) calls).call now true).1.failure_count = 0) ∧
    (((runCalls (mkCircuitBreaker cfg) calls).call now false).1.state
        = CircuitState.opened ∧
      ((runCalls (mkCircuitBreaker cfg) calls).call now false).1.failure_count
        = (runCalls (mkCircuitBreaker cfg) calls).failure_count + 1 ∧
      ((runCalls (mkCircuitBreaker cfg) calls).call now false).1.last_failure_time
        = some now) := by
  have hcount := runCalls_countInv cfg calls (Or.inl hopen)
  have hpre : (runCalls (mkCircuitBreaker cfg) calls).preCheck now
      = some { runCalls (mkCircuitBreaker cfg) calls with
                 state := CircuitState.halfOpen } := by
    simp [CircuitBreaker.preCheck, hopen, hreset]
  refine ⟨hpre, ?_, ?_⟩
  · constructor <;> simp [CircuitBreaker.call, hpre, CircuitBreaker.onSuccess]
  · have hth : (runCalls (mkCircuitBreaker cfg) calls).config.failure_threshold
        ≤ (runCalls (mkCircuitBreaker cfg) calls).failure_count + 1 :=
      le_trans hcount (Nat.le_succ _)
    refine ⟨?_, ?_, ?_⟩ <;>
      simp [CircuitBreaker.call, hpre, onFailure_eq, if_pos hth]

/-- Witness for C2: threshold 1, timeout 1, one failure at time 0, trial at
time 1. -/
theorem half_open_trial_outcome_witness :
    ((runCalls (mkCircuitBreaker ⟨1, 1⟩) [((0:ℚ), false)]).state = CircuitState.opened ∧
      (runCalls (mkCircuitBreaker ⟨1, 1⟩) [((0:ℚ), false)]).shouldAttemptReset 1 = true) ∧
    ((runCalls (mkCircuitBreaker ⟨1, 1⟩) [((0:ℚ), false)]).preCheck 1
        = some { runCalls (mkCircuitBreaker ⟨1, 1⟩) [((0:ℚ), false)] with
                   state := CircuitState.halfOpen } ∧
      (((runCalls (mkCircuitBreaker ⟨1, 1⟩) [((0:ℚ), false)]).call 1 true).1.state
          = CircuitState.closed ∧
        ((runCalls (mkCircuitBreaker ⟨1, 1⟩) [((0:ℚ), false)]).call 1
            true).1.failure_count = 0) ∧
      (((runCalls (mkCircuitBreaker ⟨1, 1⟩) [((0:ℚ), false)]).call 1 false).1.state
          = CircuitState.opened ∧
        ((runCalls (mkCircuitBreaker ⟨1, 1⟩) [((0:ℚ), false)]).call 1
            false).1.failure_count
          = (runCalls (mkCircuitBreaker ⟨1, 1⟩) [((0:ℚ), false)]).failure_count + 1 ∧
        ((runCalls (mkCircuitBreaker ⟨1, 1⟩) [((0:ℚ), false)]).call 1
            false).1.last_failure_time = some 1)) :=
  ⟨⟨by with_unfolding_all decide, by with_unfolding_all decide⟩,
    half_open_trial_outcome ⟨1, 1⟩ [((0:ℚ), false)] 1
      (by with_unfolding_all decide) (by with_unfolding_all decide)⟩

/-- C2 counterexample to the claim as stated: with threshold 1 and timeout
1, a failure at time 0 opens the breaker with `failure_count = 1`; the call
at time 1 is admitted as the HALF_OPEN trial and its failure moves the
breaker to OPEN with `failure_count = 2` — the count is incremented, not
reset. -/
theorem half_open_trial_failure_count_counterexample :
    ((((mkCircuitBreaker ⟨1, 1⟩).call 0 false).1.preCheck 1).map CircuitBreaker.state
        = some CircuitState.halfOpen) ∧
    (((mkCircuitBreaker ⟨1, 1⟩).call 0 false).1.failure_count = 1) ∧
    ((((mkCircuitBreaker ⟨1, 1⟩).call 0 false).1.call 1 false).1.state
        = CircuitState.opened) ∧
    ((((mkCircuitBreaker ⟨1, 1⟩).call 0 false).1.call 1 false).1.failure_count = 2) ∧
    ¬ ((((mkCircuitBreaker ⟨1, 1⟩).call 0 false).1.call 1 false).1.failure_count = 0) := by
  with_unfolding_all decide

/-- C3 (amended): when `safe_execute` runs a function with both a retry
config and a circuit breaker, the retry wrapper is invoked through the
breaker as one guarded call, so the breaker records exactly one outcome for
the whole retried call: `failure_count` becomes 0 when some attempt
succeeded, and increases by exactly one — however many attempts failed —
when the retried call as a whole raised. The invocation count equals the
number of attempts the retry loop made. -/
theorem safe_execute_records_single_outcome (cb : CircuitBreaker) (rcfg : RetryConfig)
    (now : ℚ) (f : Nat → AttemptOutcome)
    (hclosed : cb.state = CircuitState.closed) :
    (safeExecute cb rcfg now f).2.2 = (retryRun rcfg f).attempts ∧
    ((retryRun rcfg f).result = RunResult.ok →
      (safeExecute cb rcfg now f).1.failure_count = 0) ∧
    (¬ (retryRun rcfg f).result = RunResult.ok →
      (safeExecute cb rcfg now f).1.failure_count = cb.failure_count + 1) := by
  have hpre : cb.preCheck now = some cb := by
    simp [CircuitBreaker.preCheck, hclosed]
  refine ⟨?_, ?_, ?_⟩
  · simp only [safeExecute, hpre]
    split <;> rfl
  · intro h
    simp only [safeExecute, hpre, h, if_true, CircuitBreaker.onSuccess]
    split <;> rfl
  · intro h
    simp only [safeExecute, hpre, if_neg h, onFailure_eq]
    split <;> rfl

/-- Witness for C3: serper-style breaker (threshold 5), three always-failing
retryable attempts; the breaker ends with exactly one recorded failure. -/
theorem safe_execute_records_single_outcome_witness :
    ((mkCircuitBreaker ⟨5, 60⟩).state = CircuitState.closed) ∧
    (safeExecute (mkCircuitBreaker ⟨5, 60⟩) ⟨3, 1, 60, true⟩ 0
        (fun _ => AttemptOutcome.retryable)).2.2
      = (retryRun ⟨3, 1, 60, true⟩ (fun _ => AttemptOutcome.retryable)).attempts ∧
    (safeExecute (mkCircuitBreaker ⟨5, 60⟩) ⟨3, 1, 60, true⟩ 0
        (fun _ => AttemptOutcome.retryable)).1.failure_count
      = (mkCircuitBreaker ⟨5, 60⟩).failure_count + 1 :=
  ⟨rfl,
    (safe_execute_records_single_outcome (mkCircuitBreaker ⟨5, 60⟩) ⟨3, 1, 60, true⟩ 0
      (fun _ => AttemptOutcome.retryable) rfl).1,
    (safe_execute_records_single_outcome (mkCircuitBreaker ⟨5, 60⟩) ⟨3, 1, 60, true⟩ 0
      (fun _ => AttemptOutcome.retryable) rfl).2.2 (by decide)⟩

/-- C3 counterexample to the claim as stated: a fresh breaker with
threshold 5 and a retry config of 3 attempts over an always-failing
retryable function. The underlying function fails 3 times (k = 3), yet the
breaker records exactly one failure, not three. -/
theorem safe_execute_per_attempt_counterexample :
    (safeExecute (mkCircuitBreaker ⟨5, 60⟩) ⟨3, 1, 60, true⟩ 0
        (fun _ => AttemptOutcome.retryable)).2.2 = 3 ∧
    (safeExecute (mkCircuitBreaker ⟨5, 60⟩) ⟨3, 1, 60, true⟩ 0
        (fun _ => AttemptOutcome.retryable)).1.failure_count = 1 ∧
    ¬ ((safeExecute (mkCircuitBreaker ⟨5, 60⟩) ⟨3, 1, 60, true⟩ 0
        (fun _ => AttemptOutcome.retryable)).1.failure_count = 3) := by
  decide

/-! ### Helper lemmas: retry loop -/

theorem retryLoopAux_step (cfg : RetryConfig) (f : Nat → AttemptOutcome)
    (attempt n : Nat) :
    retryLoopAux cfg f attempt (n + 1)
      = match f attempt with
        | AttemptOutcome.ok => { result := RunResult.ok, attempts := 1, sleeps := [] }
        | AttemptOutcome.fatal =>
            { result := RunResult.raisedFatal, attempts := 1, sleeps := [] }
        | AttemptOutcome.retryable =>
            if attempt = cfg.max_attempts - 1 then
              { result := RunResult.raisedRetryable, attempts := 1, sleeps := [] }
            else
              { result := (retryLoopAux cfg f (attempt + 1) n).result
                attempts := (retryLoopAux cfg f (attempt + 1) n).attempts + 1
                sleeps := delayFor cfg attempt :: (retryLoopAux cfg f (attempt + 1) n).sleeps } :=
  rfl

theorem retryLoopAux_all_retryable (cfg : RetryConfig) (f : Nat → AttemptOutcome)
    (hf : ∀ j, f j = AttemptOutcome.retryable) (n : Nat) :
    ∀ attempt, attempt + (n + 1) = cfg.max_attempts →
      retryLoopAux cfg f attempt (n + 1)
        = { result := RunResult.raisedRetryable, attempts := n + 1,
            sleeps := (List.range' attempt n).map (delayFor cfg) } := by
  induction n with
  | zero =>
      intro attempt h
      have ha : attempt = cfg.max_attempts - 1 := by omega
      rw [retryLoopAux_step]
      simp [hf, ha]
  | succ n ih =>
      intro attempt h
      have hne : ¬ (attempt = cfg.max_attempts - 1) := by omega
      have hrec := ih (attempt + 1) (by omega)
      rw [retryLoopAux_step, hrec]
      simp [hf, hne, List.range'_succ]

theorem retryLoopAux_fatal (cfg : RetryConfig) (f : Nat → AttemptOutcome) (k : Nat) :
    ∀ attempt n, f (attempt + k) = AttemptOutcome.fatal →
      (∀ j, j < k → f (attempt + j) = AttemptOutcome.retryable) →
      k < n → attempt + n = cfg.max_attempts →
      retryLoopAux cfg f attempt n
        = { result := RunResult.raisedFatal, attempts := k + 1,
            sleeps := (List.range' attempt k).map (delayFor cfg) } := by
  induction k with
  | zero =>
      intro attempt n hfat _ hkn _
      obtain ⟨m, rfl⟩ : ∃ m, n = m + 1 := ⟨n - 1, by omega⟩
      simp only [Nat.add_zero] at hfat
      rw [retryLoopAux_step]
      simp [hfat]
  | succ k ih =>
      intro attempt n hfat hret hkn hsum
      obtain ⟨m, rfl⟩ : ∃ m, n = m + 1 := ⟨n - 1, by omega⟩
      have h0 : f attempt = AttemptOutcome.retryable := by
        simpa using hret 0 (Nat.succ_pos k)
      have hne : ¬ (attempt = cfg.max_attempts - 1) := by omega
      have hfat1 : f (attempt + 1 + k) = AttemptOutcome.fatal := by
        rw [show attempt + 1 + k = attempt + (k + 1) by omega]; exact hfat
      have hret1 : ∀ j, j < k → f (attempt + 1 + j) = AttemptOutcome.retryable := by
        intro j hj
        rw [show attempt + 1 + j = attempt + (j + 1) by omega]
        exact hret (j + 1) (by omega)
      have hrec := ih (attempt + 1) m hfat1 hret1 (by omega) (by omega)
      rw [retryLoopAux_step, hrec]
      simp [h0, hne, List.range'_succ]

/-- C4: over any retry configuration with at least one attempt, an
always-failing retryable call makes exactly `max_attempts` attempts,
sleeping `delayFor` between consecutive attempts (so `max_attempts - 1`
sleeps: `min(base_delay * 2 ** (i-1), max_delay)` between 1-based attempts
`i` and `i+1` under exponential backoff, `base_delay` otherwise) and
propagating the original retryable error after the final attempt with no
further sleep; and a non-retryable failure at attempt index `k` propagates
immediately, after exactly `k + 1` attempts and `k` sleeps, regardless of
the attempts remaining. -/
theorem retry_attempt_count_and_backoff (cfg : RetryConfig) (f : Nat → AttemptOutcome)
    (hmax : 1 ≤ cfg.max_attempts) :
    (∀ i, delayFor cfg i
        = if cfg.exponential_backoff then min (cfg.base_delay * 2 ^ i) cfg.max_delay
          else cfg.base_delay) ∧
    ((∀ j, f j = AttemptOutcome.retryable) →
      retryRun cfg f
        = { result := RunResult.raisedRetryable, attempts := cfg.max_attempts,
            sleeps := (List.range (cfg.max_attempts - 1)).map (delayFor cfg) }) ∧
    (∀ k, k < cfg.max_attempts → f k = AttemptOutcome.fatal →
      (∀ j, j < k → f j = AttemptOutcome.retryable) →
      retryRun cfg f
        = { result := RunResult.raisedFatal, attempts := k + 1,
            sleeps := (List.range k).map (delayFor cfg) }) := by
  refine ⟨fun i => rfl, ?_, ?_⟩
  · intro hf
    obtain ⟨m, hm⟩ : ∃ m, cfg.max_attempts = m + 1 := ⟨cfg.max_attempts - 1, by omega⟩
    have h := retryLoopAux_all_retryable cfg f hf m 0 (by omega)
    rw [retryRun, hm, h, List.range_eq_range']
    simp [hm]
  · intro k hk hfat hret
    have h := retryLoopAux_fatal cfg f k 0 cfg.max_attempts (by simpa using hfat)
      (by intro j hj; simpa using hret j hj) hk (by omega)
    rw [retryRun, h, List.range_eq_range']

/-- Witness for C4: 3 attempts, base delay 1, max delay 60, exponential
backoff, always-failing retryable call. -/
theorem retry_attempt_count_and_backoff_witness :
    (1 ≤ (3 : Nat)) ∧
    retryRun ⟨3, 1, 60, true⟩ (fun _ => AttemptOutcome.retryable)
      = { result := RunResult.raisedRetryable, attempts := 3,
          sleeps := (List.range (3 - 1)).map (delayFor ⟨3, 1, 60, true⟩) } :=
  ⟨by decide,
    (retry_attempt_count_and_backoff ⟨3, 1, 60, true⟩ (fun _ => AttemptOutcome.retryable)
      (by decide)).2.1 (fun j => rfl)⟩

/-! ### Helper lemmas: metric restore -/

theorem pyint_intCast (a : ℤ) : pyint (a : ℚ) = a := by
  unfold pyint
  split
  · exact Int.floor_intCast a
  · rw [← Int.cast_neg, Int.floor_intCast, neg_neg]

theorem restoreSample_counter_dispatch (name : String)
    (hname : name ∈ knownCounterNames) (live value : ℚ) :
    restoreSample name live value
      = if live < value then
          RestoreAction.advanceCounter name ((pyint value - pyint live).toNat)
        else RestoreAction.skip := by
  fin_cases hname <;> rfl

/-- C5 (amended): during restore, a counter sample for a known counter is
left unchanged unless the persisted value exceeds the live value, in which
case the live counter is advanced by `int(persisted) - int(live)` unit
increments — the difference of the integer truncations, which equals the
exact difference whenever both values are integers — and a restore never
decreases a counter. -/
theorem counter_restore_truncated_monotone (name : String)
    (hname : name ∈ knownCounterNames) (live value : ℚ) :
    (¬ live < value → restoreCounterValue name live value = live) ∧
    (live < value →
      restoreCounterValue name live value
        = live + (((pyint value - pyint live).toNat : ℕ) : ℚ)) ∧
    live ≤ restoreCounterValue name live value ∧
    (∀ a b : ℤ, live = (a : ℚ) → value = (b : ℚ) → live < value →
      restoreCounterValue name live value = value) := by
  have hdispatch := restoreSample_counter_dispatch name hname live value
  refine ⟨?_, ?_, ?_, ?_⟩
  · intro h
    rw [restoreCounterValue, hdispatch, if_neg h]; rfl
  · intro h
    rw [restoreCounterValue, hdispatch, if_pos h]; rfl
  · by_cases h : live < value
    · rw [restoreCounterValue, hdispatch, if_pos h]
      simp only [applyCounterAction]
      exact le_add_of_nonneg_right (Nat.cast_nonneg _)
    · rw [restoreCounterValue, hdispatch, if_neg h]
      exact le_refl live
  · intro a b ha hb hlt
    subst ha; subst hb
    rw [restoreCounterValue, hdispatch, if_pos hlt]
    have hab : a < b := by exact_mod_cast hlt
    simp only [applyCounterAction, pyint_intCast]
    have hz : a + (b - a).toNat = b := by omega
    exact_mod_cast congrArg (fun z : ℤ => (z : ℚ)) hz

/-- Witness for C5 at an integral pair: live 0, persisted 3. -/
theorem counter_restore_truncated_monotone_witness :
    ("patent_agent_executions_total" ∈ knownCounterNames) ∧
    ((0 : ℚ) < 3) ∧
    restoreCounterValue "patent_agent_executions_total" 0 3
      = 0 + (((pyint 3 - pyint 0).toNat : ℕ) : ℚ) :=
  ⟨by decide, zero_lt_three,
    (counter_restore_truncated_monotone "patent_agent_executions_total" (by decide) 0 3).2.1
      zero_lt_three⟩

/-- C5 counterexample to the claim as stated: a persisted counter value of
5/2 against a live value of 0 advances the counter to 2 (the truncated
difference), not to 0 + (5/2 - 0) = 5/2 as an advance by exactly the
difference would give. -/
theorem counter_restore_fractional_counterexample :
    restoreCounterValue "patent_agent_executions_total" 0 (5/2) = 2 ∧
    ¬ (restoreCounterValue "patent_agent_executions_total" 0 (5/2) = 0 + (5/2 - 0)) := by
  with_unfolding_all decide

/-- C6: every supported histogram-sum sample is restored as exactly one
synthetic observation of the persisted sum, so the matching histogram child
gains exactly 1 in count and exactly the persisted sum in sum. -/
theorem histogram_sum_restore_one_observation (name : String)
    (hname : name ∈ supportedHistogramSumNames) (live value : ℚ) (h : HistogramChild) :
    restoreSample name live value = RestoreAction.observeHistogram name value ∧
    (h.observe value).count = h.count + 1 ∧
    (h.observe value).sum = h.sum + value := by
  refine ⟨?_, rfl, rfl⟩
  fin_cases hname <;> rfl

/-- Witness for C6 at the workflow-duration sum metric. -/
theorem histogram_sum_restore_one_observation_witness :
    ("patent_workflow_duration_seconds_sum" ∈ supportedHistogramSumNames) ∧
    (restoreSample "patent_workflow_duration_seconds_sum" 0 7
        = RestoreAction.observeHistogram "patent_workflow_duration_seconds_sum" 7 ∧
      ((HistogramChild.mk 1 2).observe 7).count = (HistogramChild.mk 1 2).count + 1 ∧
      ((HistogramChild.mk 1 2).observe 7).sum = (HistogramChild.mk 1 2).sum + 7) :=
  ⟨by decide,
    histogram_sum_restore_one_observation "patent_workflow_duration_seconds_sum" (by decide)
      0 7 (HistogramChild.mk 1 2)⟩

/-- C7 (amended): `save_metrics` writes the serialized snapshot directly to
the persistence file — a truncating open followed by the write, with no
temporary file and no rename — so a completed save leaves the new data, but
a crash between the truncating open and the completed write leaves the file
empty, destroying the previously persisted snapshot. -/
theorem save_metrics_direct_write (fs : String → Option String) (path data : String) :
    save_metrics_ops path data = [FsOp.openTrunc path, FsOp.writeAll path data] ∧
    ((save_metrics_ops path data).any FsOp.isRename) = false ∧
    runFs fs (save_metrics_ops path data) path = some data ∧
    runFs fs ((save_metrics_ops path data).take 1) path = some "" := by
  refine ⟨rfl, rfl, ?_, ?_⟩ <;>
    simp [runFs, save_metrics_ops, applyFsOp]

/-- C7 counterexample to the claim as stated: saving over an existing
snapshot performs no rename, and the file system seen after a crash
between the truncating open and the write holds an empty persistence file
in place of the previous snapshot — a half-written state the claim says
can never occur. -/
theorem save_metrics_not_atomic_counterexample :
    ((save_metrics_ops "monitoring/metrics/metrics_persistence.json" "snapshot-v2").any
        FsOp.isRename) = false ∧
    runFs
        (fun q => if q = "monitoring/metrics/metrics_persistence.json"
          then some "snapshot-v1" else none)
        ((save_metrics_ops "monitoring/metrics/metrics_persistence.json" "snapshot-v2").take 1)
        "monitoring/metrics/metrics_persistence.json" = some "" ∧
    ¬ (some "" = some "snapshot-v1") := by
  refine ⟨rfl, ?_, by decide⟩
  simp [runFs, save_metrics_ops, applyFsOp]

/-- C8: whatever state the persistence file is in, `load_metrics` never
raises: a missing or corrupt file yields `None`, and a parsed file yields
its `metrics` field (an empty list when the field is absent). -/
theorem load_metrics_total_never_raises :
    (∀ f : PersistenceFile, (load_metrics f).raised = false) ∧
    load_metrics PersistenceFile.missing = PyOutcome.ok none ∧
    load_metrics PersistenceFile.corrupt = PyOutcome.ok none ∧
    (∀ (m : Option (List Sample)) (ts : Option ℚ),
      load_metrics (PersistenceFile.valid m ts) = PyOutcome.ok (some (m.getD []))) := by
  refine ⟨fun f => ?_, rfl, rfl, fun m ts => rfl⟩
  cases f <;> rfl

/-! ### Helper lemmas: dict and set operations of the workflow tracker -/

theorem dictLookup_dictSet {α : Type} (d : List (String × α)) (k k1 : String) (v : α) :
    dictLookup (dictSet d k v) k1 = if k = k1 then some v else dictLookup d k1 := by
  induction d with
  | nil => simp [dictSet, dictLookup]
  | cons p rest ih =>
      obtain ⟨k2, v2⟩ := p
      by_cases h : k2 = k
      · subst h
        simp only [dictSet, if_pos rfl, dictLookup, ih]
        split_ifs <;> rfl
      · simp only [dictSet, if_neg h, dictLookup, ih]
        split_ifs <;> simp_all

theorem dictLookup_dictRemove {α : Type} (d : List (String × α)) (k k1 : String) :
    dictLookup (dictRemove d k) k1 = if k = k1 then none else dictLookup d k1 := by
  induction d with
  | nil => simp [dictRemove, dictLookup]
  | cons p rest ih =>
      obtain ⟨k2, v2⟩ := p
      by_cases h : k2 = k
      · subst h
        simp only [dictRemove, List.filter_cons] at ih ⊢
        simp only [bne_self_eq_false, ih]
        split_ifs <;> simp_all [dictLookup]
      · simp only [dictRemove, List.filter_cons] at ih ⊢
        have hb : (k2 != k) = true := by simp [bne_iff_ne, h]
        simp only [hb, if_true, dictLookup, ih]
        split_ifs <;> simp_all

theorem dictLookup_some_mem {α : Type} (d : List (String × α)) (k : String) (v : α)
    (h : dictLookup d k = some v) : (k, v) ∈ d := by
  induction d with
  | nil => simp [dictLookup] at h
  | cons p rest ih =>
      obtain ⟨k2, v2⟩ := p
      simp only [dictLookup] at h
      split_ifs at h with h2
      · injection h with h3
        subst h2; subst h3
        exact List.mem_cons_self _ _
      · exact List.mem_cons_of_mem _ (ih h)

theorem mem_dictLookup_of_nodup {α : Type} (d : List (String × α))
    (hnd : (d.map Prod.fst).Nodup) (k : String) (v : α) (hm : (k, v) ∈ d) :
    dictLookup d k = some v := by
  induction d with
  | nil => simp at hm
  | cons p rest ih =>
      obtain ⟨k2, v2⟩ := p
      simp only [List.map_cons, List.nodup_cons] at hnd
      obtain ⟨hk2, hnd2⟩ := hnd
      rcases List.mem_cons.mp hm with h1 | h1
      · obtain ⟨hk, hv⟩ := Prod.mk.inj h1.symm
        subst hk; subst hv
        simp [dictLookup]
      · have hne : k2 ≠ k := by
          intro hh
          subst hh
          exact hk2 (List.mem_map_of_mem Prod.fst h1)
        simp only [dictLookup, if_neg hne]
        exact ih hnd2 h1

theorem mem_setAdd (s : List String) (x y : String) :
    y ∈ setAdd s x ↔ y = x ∨ y ∈ s := by
  unfold setAdd
  split_ifs with h
  · constructor
    · exact Or.inr
    · rintro (rfl | hy)
      · exact h
      · exact hy
  · simp [List.mem_cons]

theorem mem_setRemove (s : List String) (x y : String) :
    y ∈ setRemove s x ↔ y ∈ s ∧ y ≠ x := by
  simp [setRemove, List.mem_filter, bne_iff_ne]

theorem foldl_remove_active (ids : List String) :
    ∀ (s : WorkflowTracker) (x : String),
      x ∈ (ids.foldl removeWorkflowEntry s).active_workflows
        ↔ x ∈ s.active_workflows ∧ x ∉ ids := by
  induction ids with
  | nil => intro s x; simp
  | cons i rest ih =>
      intro s x
      rw [List.foldl_cons, ih]
      simp only [removeWorkflowEntry, mem_setRemove, List.mem_cons]
      tauto

theorem foldl_remove_listeners (ids : List String) :
    ∀ (s : WorkflowTracker) (x : String),
      dictLookup (ids.foldl removeWorkflowEntry s).workflow_listeners x
        = if x ∈ ids then none else dictLookup s.workflow_listeners x := by
  induction ids with
  | nil => intro s x; simp
  | cons i rest ih =>
      intro s x
      rw [List.foldl_cons, ih]
      simp only [removeWorkflowEntry, dictLookup_dictRemove, List.mem_cons]
      split_ifs <;> simp_all

theorem foldl_remove_last (ids : List String) :
    ∀ (s : WorkflowTracker) (x : String),
      dictLookup (ids.foldl removeWorkflowEntry s).last_workflow_activity x
        = if x ∈ ids then none else dictLookup s.last_workflow_activity x := by
  induction ids with
  | nil => intro s x; simp
  | cons i rest ih =>
      intro s x
      rw [List.foldl_cons, ih]
      simp only [removeWorkflowEntry, dictLookup_dictRemove, List.mem_cons]
      split_ifs <;> simp_all

/-! ### Tracker invariant preservation -/

theorem trackerInv_empty : TrackerInv emptyTracker := by
  intro workflow_id
  simp [emptyTracker, dictLookup]

theorem trackerInv_apply (s : WorkflowTracker) (op : TrackerOp) (h : TrackerInv s) :
    TrackerInv (applyTrackerOp s op) := by
  cases op with
  | register wid l now =>
      by_cases hm : wid ∈ s.active_workflows
      · simpa [applyTrackerOp, register_workflow, hm] using h
      · intro workflow_id
        obtain ⟨h1, h2⟩ := h workflow_id
        simp only [applyTrackerOp, register_workflow, if_neg hm, mem_setAdd,
          dictLookup_dictSet]
        constructor
        · by_cases hw : wid = workflow_id
          · simp [hw]
          · simp only [if_neg hw]
            constructor
            · rintro (h3 | h3)
              · exact absurd h3.symm hw
              · exact h1.mp h3
            · intro h3; exact Or.inr (h1.mpr h3)
        · by_cases hw : wid = workflow_id
          · simp [hw]
          · simp only [if_neg hw]
            constructor
            · rintro (h3 | h3)
              · exact absurd h3.symm hw
              · exact h2.mp h3
            · intro h3; exact Or.inr (h2.mpr h3)
  | unregister wid =>
      by_cases hm : wid ∈ s.active_workflows
      · intro workflow_id
        obtain ⟨h1, h2⟩ := h workflow_id
        simp only [applyTrackerOp, unregister_workflow, if_pos hm, mem_setRemove,
          dictLookup_dictRemove]
        by_cases hw : wid = workflow_id
        · simp [hw]
        · constructor
          · simp only [if_neg hw]
            constructor
            · intro h3; exact h1.mp h3.1
            · intro h3; exact ⟨h1.mpr h3, fun hh => hw hh.symm⟩
          · simp only [if_neg hw]
            constructor
            · intro h3; exact h2.mp h3.1
            · intro h3; exact ⟨h2.mpr h3, fun hh => hw hh.symm⟩
      · simpa [applyTrackerOp, unregister_workflow, hm] using h
  | touch wid now =>
      by_cases hm : wid ∈ s.active_workflows
      · intro workflow_id
        obtain ⟨h1, h2⟩ := h workflow_id
        simp only [applyTrackerOp, update_workflow_activity, if_pos hm]
        refine ⟨h1, ?_⟩
        simp only [dictLookup_dictSet]
        by_cases hw : wid = workflow_id
        · subst hw; simp [hm]
        · simp [if_neg hw, h2]
      · simpa [applyTrackerOp, update_workflow_activity, hm] using h
  | sweep now maxInactive =>
      intro workflow_id
      obtain ⟨h1, h2⟩ := h workflow_id
      simp only [applyTrackerOp, cleanup_inactive_workflows, foldl_remove_active,
        foldl_remove_listeners, foldl_remove_last]
      split_ifs with hmem <;> simp_all

theorem trackerInv_foldl (ops : List TrackerOp) :
    ∀ s : WorkflowTracker, TrackerInv s → TrackerInv (ops.foldl applyTrackerOp s) := by
  induction ops with
  | nil => intro s h; simpa using h
  | cons op rest ih =>
      intro s h
      rw [List.foldl_cons]
      exact ih _ (trackerInv_apply s op h)

theorem trackerInv_runOps (ops : List TrackerOp) : TrackerInv (runOps ops) :=
  trackerInv_foldl ops emptyTracker trackerInv_empty

/-- C9 (amended): over a tracker whose activity dict has no duplicate keys,
`cleanup_inactive_workflows (now, maxInactive)` removes exactly the entries
whose last activity is more than `maxInactive` older than `now` (entries at
least as recent are kept, with their listener and activity binding intact)
and returns the NUMBER of removed entries — the length of the removed-id
list the spec describes, not the list itself. -/
theorem sweep_removes_stale_returns_count (s : WorkflowTracker) (now maxInactive : ℚ)
    (hnk : (s.last_workflow_activity.map Prod.fst).Nodup) :
    (cleanup_inactive_workflows s now maxInactive).2
      = (sweepRemovedIds s now maxInactive).length ∧
    (∀ workflow_id t, dictLookup s.last_workflow_activity workflow_id = some t →
      (maxInactive < now - t →
        workflow_id ∈ sweepRemovedIds s now maxInactive ∧
        dictLookup (cleanup_inactive_workflows s now maxInactive).1.last_workflow_activity
          workflow_id = none ∧
        workflow_id ∉ (cleanup_inactive_workflows s now maxInactive).1.active_workflows ∧
        get_workflow_listener (cleanup_inactive_workflows s now maxInactive).1 workflow_id
          = none) ∧
      (¬ maxInactive < now - t →
        workflow_id ∉ sweepRemovedIds s now maxInactive ∧
        dictLookup (cleanup_inactive_workflows s now maxInactive).1.last_workflow_activity
          workflow_id = some t ∧
        (workflow_id ∈ (cleanup_inactive_workflows s now maxInactive).1.active_workflows
          ↔ workflow_id ∈ s.active_workflows) ∧
        get_workflow_listener (cleanup_inactive_workflows s now maxInactive).1 workflow_id
          = get_workflow_listener s workflow_id)) := by
  have hR : ∀ workflow_id t, dictLookup s.last_workflow_activity workflow_id = some t →
      (workflow_id ∈ sweepRemovedIds s now maxInactive ↔ maxInactive < now - t) := by
    intro workflow_id t hl
    constructor
    · intro hid
      obtain ⟨⟨k2, t2⟩, hmem, heq⟩ := List.mem_map.mp hid
      obtain ⟨hm2, hp2⟩ := List.mem_filter.mp hmem
      simp only at heq
      subst heq
      have hl2 := mem_dictLookup_of_nodup s.last_workflow_activity hnk _ _ hm2
      rw [hl] at hl2
      injection hl2 with hl3
      subst hl3
      exact of_decide_eq_true hp2
    · intro hcond
      exact List.mem_map.mpr ⟨(workflow_id, t),
        List.mem_filter.mpr ⟨dictLookup_some_mem _ _ _ hl, decide_eq_true hcond⟩, rfl⟩
  have hfst : (cleanup_inactive_workflows s now maxInactive).1
      = (sweepRemovedIds s now maxInactive).foldl removeWorkflowEntry s := rfl
  refine ⟨rfl, ?_⟩
  intro workflow_id t hl
  constructor
  · intro hcond
    have hid : workflow_id ∈ sweepRemovedIds s now maxInactive := (hR _ _ hl).mpr hcond
    refine ⟨hid, ?_, ?_, ?_⟩
    · rw [hfst, foldl_remove_last, if_pos hid]
    · rw [hfst, foldl_remove_active]
      exact fun hh => hh.2 hid
    · rw [get_workflow_listener, hfst, foldl_remove_listeners, if_pos hid]
  · intro hcond
    have hid : workflow_id ∉ sweepRemovedIds s now maxInactive := by
      intro hh; exact hcond ((hR _ _ hl).mp hh)
    refine ⟨hid, ?_, ?_, ?_⟩
    · rw [hfst, foldl_remove_last, if_neg hid]
      exact hl
    · rw [hfst, foldl_remove_active]
      exact ⟨fun hh => hh.1, fun hh => ⟨hh, hid⟩⟩
    · rw [get_workflow_listener, get_workflow_listener, hfst, foldl_remove_listeners,
        if_neg hid]

/-- Witness for C9: an entry last touched at time 0, swept at time 10 with
a one second bound, is removed while the count 1 is returned. -/
theorem sweep_removes_stale_returns_count_witness :
    ((([("wa", (0:ℚ))].map Prod.fst).Nodup) ∧
      dictLookup [("wa", (0:ℚ))] "wa" = some 0 ∧ (1:ℚ) < 10 - 0) ∧
    (cleanup_inactive_workflows (WorkflowTracker.mk ["wa"] [("wa", 7)] [("wa", 0)]) 10 1).2
      = (sweepRemovedIds (WorkflowTracker.mk ["wa"] [("wa", 7)] [("wa", 0)]) 10 1).length ∧
    ("wa" ∈ sweepRemovedIds (WorkflowTracker.mk ["wa"] [("wa", 7)] [("wa", 0)]) 10 1 ∧
      dictLookup (cleanup_inactive_workflows
          (WorkflowTracker.mk ["wa"] [("wa", 7)] [("wa", 0)]) 10 1).1.last_workflow_activity
        "wa" = none ∧
      "wa" ∉ (cleanup_inactive_workflows
          (WorkflowTracker.mk ["wa"] [("wa", 7)] [("wa", 0)]) 10 1).1.active_workflows ∧
      get_workflow_listener (cleanup_inactive_workflows
          (WorkflowTracker.mk ["wa"] [("wa", 7)] [("wa", 0)]) 10 1).1 "wa" = none) :=
  ⟨⟨by decide, rfl, by norm_num⟩,
    (sweep_removes_stale_returns_count (WorkflowTracker.mk ["wa"] [("wa", 7)] [("wa", 0)])
      10 1 (by decide)).1,
    ((sweep_removes_stale_returns_count (WorkflowTracker.mk ["wa"] [("wa", 7)] [("wa", 0)])
      10 1 (by decide)).2 "wa" 0 rfl).1 (by norm_num)⟩

/-- C9 counterexample to the claim as stated: two trackers whose sweeps
remove different ids (`["wa"]` versus `["wb"]`) get identical return values
from `cleanup_inactive_workflows` — the function returns the count of
removed entries, so its return value cannot be the list of removed ids. -/
theorem sweep_returns_count_counterexample :
    (cleanup_inactive_workflows (WorkflowTracker.mk ["wa"] [("wa", 1)] [("wa", 0)]) 10 1).2
      = (cleanup_inactive_workflows
          (WorkflowTracker.mk ["wb"] [("wb", 2)] [("wb", 0)]) 10 1).2 ∧
    sweepRemovedIds (WorkflowTracker.mk ["wa"] [("wa", 1)] [("wa", 0)]) 10 1 = ["wa"] ∧
    sweepRemovedIds (WorkflowTracker.mk ["wb"] [("wb", 2)] [("wb", 0)]) 10 1 = ["wb"] ∧
    ¬ (sweepRemovedIds (WorkflowTracker.mk ["wa"] [("wa", 1)] [("wa", 0)]) 10 1
        = sweepRemovedIds (WorkflowTracker.mk ["wb"] [("wb", 2)] [("wb", 0)]) 10 1) := by
  with_unfolding_all decide

/-- C10: after any sequence of register, unregister, touch and sweep
operations from a fresh tracker, the three internal structures agree: an id
has a listener exactly when it is in the active set, exactly when it has an
activity entry; and a duplicate register returns false and leaves the
tracker untouched. -/
theorem tracker_structures_consistent (ops : List TrackerOp) (workflow_id : String) :
    ((get_workflow_listener (runOps ops) workflow_id).isSome
        ↔ workflow_id ∈ (runOps ops).active_workflows) ∧
    ((dictLookup (runOps ops).last_workflow_activity workflow_id).isSome
        ↔ workflow_id ∈ (runOps ops).active_workflows) ∧
    (∀ (listener : Nat) (now : ℚ), workflow_id ∈ (runOps ops).active_workflows →
      register_workflow (runOps ops) workflow_id listener now = (runOps ops, false)) := by
  obtain ⟨h1, h2⟩ := trackerInv_runOps ops workflow_id
  refine ⟨h1.symm, h2.symm, ?_⟩
  intro l now hm
  simp [register_workflow, hm]

/-- Witness for C10 after one registration. -/
theorem tracker_structures_consistent_witness :
    ("w1" ∈ (runOps [TrackerOp.register "w1" 7 0]).active_workflows) ∧
    ((get_workflow_listener (runOps [TrackerOp.register "w1" 7 0]) "w1").isSome
        ↔ "w1" ∈ (runOps [TrackerOp.register "w1" 7 0]).active_workflows) ∧
    register_workflow (runOps [TrackerOp.register "w1" 7 0]) "w1" 5 3
      = (runOps [TrackerOp.register "w1" 7 0], false) :=
  ⟨by decide, (tracker_structures_consistent [TrackerOp.register "w1" 7 0] "w1").1,
    (tracker_structures_consistent [TrackerOp.register "w1" 7 0] "w1").2.2 5 3 (by decide)⟩

end PatentAgent
